import Mathlib

/-!
Verification of the InfyndChatbot repository (Flask RAG chatbot).

This file shallowly embeds the bespoke logic of the repository:
  * the output-extraction step of the `/get` chat handlers
    (`app.py` lines 83-95, `sampleapp.py` lines 91-103),
  * the `/get` request guard and response assembly (`app.py` lines 70-114,
    `test2.py` lines 26-70, `test3.py` lines 42-144),
  * the `/history` route (`app.py` lines 117-124, `sampleapp.py` 125-132),
  * the document loader (`src/helper.py`, `load_json_files`).

External services (Pinecone, the LLM, MongoDB) are modelled as explicit
inputs (match lists, `Except`-valued outcomes); Python standard-library
functions used by the code (`json.loads`, `str.strip`, `str.replace`,
`dict.get`) are modelled as Lean functions following their documented
semantics on the subset of inputs the repository exercises.
-/

/-- JSON values as produced by Python's `json.loads`.  Objects are
Python dicts: fields are kept in insertion order with unique keys —
the parser deduplicates repeated keys exactly as building a dict does
(the last value wins, the key keeps its first-occurrence position; see
`dedupFields`).  Numbers are modelled as integers: the repository's data
contains no fractional or exponent literals, which are outside the
modelled subset. -/
inductive JValue where
  | null : JValue
  | bool (b : Bool) : JValue
  | num (n : Int) : JValue
  | str (s : String) : JValue
  | arr (items : List JValue) : JValue
  | obj (fields : List (String × JValue)) : JValue

/-- JSON whitespace, as skipped by `json.loads` (RFC 8259: space, tab,
newline, carriage return). -/
def isJsonWs (c : Char) : Bool :=
  c = ' ' || c = '\t' || c = '\n' || c = '\r'

/-- Skip leading JSON whitespace. -/
def skipWs (cs : List Char) : List Char :=
  cs.dropWhile isJsonWs

/-- Value of a hexadecimal digit, for `\uXXXX` string escapes. -/
def hexVal (c : Char) : Option Nat :=
  if '0' ≤ c ∧ c ≤ '9' then some (c.toNat - '0'.toNat)
  else if 'a' ≤ c ∧ c ≤ 'f' then some (c.toNat - 'a'.toNat + 10)
  else if 'A' ≤ c ∧ c ≤ 'F' then some (c.toNat - 'A'.toNat + 10)
  else none

/-- Single-character string escapes accepted by `json.loads`. -/
def escChar (c : Char) : Option Char :=
  if c = '"' then some '"'
  else if c = '\\' then some '\\'
  else if c = '/' then some '/'
  else if c = 'b' then some '\x08'
  else if c = 'f' then some '\x0c'
  else if c = 'n' then some '\n'
  else if c = 'r' then some '\r'
  else if c = 't' then some '\t'
  else none

/-- Parse the body of a JSON string literal (after the opening quote),
returning the decoded characters and the rest of the input.  `fuel`
bounds recursion; callers supply at least the input length plus one.
Strict-mode `json.loads` behaviour: unescaped control characters are
rejected; `\uXXXX` escapes decode to the corresponding code point
(surrogate pairs are outside the modelled subset). -/
def parseStringChars : Nat → List Char → Option (List Char × List Char)
  | 0, _ => none
  | _, [] => none
  | fuel + 1, c :: rest =>
    if c = '"' then some ([], rest)
    else if c = '\\' then
      match rest with
      | [] => none
      | e :: rest2 =>
        if e = 'u' then
          match rest2 with
          | h1 :: h2 :: h3 :: h4 :: rest3 => do
            let v1 ← hexVal h1
            let v2 ← hexVal h2
            let v3 ← hexVal h3
            let v4 ← hexVal h4
            let (cs, r) ← parseStringChars fuel rest3
            some (Char.ofNat (((v1 * 16 + v2) * 16 + v3) * 16 + v4) :: cs, r)
          | _ => none
        else do
          let ec ← escChar e
          let (cs, r) ← parseStringChars fuel rest2
          some (ec :: cs, r)
    else if c.toNat < 32 then none
    else do
      let (cs, r) ← parseStringChars fuel rest
      some (c :: cs, r)

/-- Parse a JSON number.  Modelled subset: optional minus sign followed by
digits with no superfluous leading zero (fraction and exponent forms are
outside the modelled subset, see `JValue`). -/
def parseNumber (cs : List Char) : Option (Int × List Char) :=
  let (neg, cs1) :=
    match cs with
    | '-' :: rest => (true, rest)
    | _ => (false, cs)
  let digits := cs1.takeWhile Char.isDigit
  let rest := cs1.dropWhile Char.isDigit
  match digits with
  | [] => none
  | d :: ds =>
    if d = '0' ∧ ds ≠ [] then none
    else
      let n : Nat := digits.foldl (fun acc c => acc * 10 + (c.toNat - '0'.toNat)) 0
      some (if neg then -(n : Int) else (n : Int), rest)

/-- One `d[k] = v` assignment on a Python dict held as an insertion-ordered
association list: an existing key keeps its position and gets the new
value; a new key is appended. -/
def dictInsert (l : List (String × JValue)) (k : String) (v : JValue) :
    List (String × JValue) :=
  match l with
  | [] => [(k, v)]
  | kv :: rest =>
    if kv.1 = k then (k, v) :: rest
    else kv :: dictInsert rest k v

/-- Building a Python dict from JSON object members in source order, as
`json.loads` does: repeated keys overwrite the stored value in place, so
the last value wins and the key keeps its first-occurrence position. -/
def dedupFields (fields : List (String × JValue)) : List (String × JValue) :=
  fields.foldl (fun acc kv => dictInsert acc kv.1 kv.2) []

mutual

/-- Parse one JSON value from the input (leading whitespace skipped),
returning the value and the remaining input.  Faithful to `json.loads`
on the modelled subset. -/
def parseValue : Nat → List Char → Option (JValue × List Char)
  | 0, _ => none
  | fuel + 1, cs =>
    match skipWs cs with
    | [] => none
    | c :: rest =>
      if c = '{' then
        match skipWs rest with
        | '}' :: rest2 => some (JValue.obj [], rest2)
        | _ => do
          let (fields, r) ← parseMembers fuel rest
          some (JValue.obj (dedupFields fields), r)
      else if c = '[' then
        match skipWs rest with
        | ']' :: rest2 => some (JValue.arr [], rest2)
        | _ => do
          let (items, r) ← parseItems fuel rest
          some (JValue.arr items, r)
      else if c = '"' then do
        let (s, r) ← parseStringChars (fuel + 1) rest
        some (JValue.str s.asString, r)
      else if c = 't' then
        match rest with
        | 'r' :: 'u' :: 'e' :: r => some (JValue.bool true, r)
        | _ => none
      else if c = 'f' then
        match rest with
        | 'a' :: 'l' :: 's' :: 'e' :: r => some (JValue.bool false, r)
        | _ => none
      else if c = 'n' then
        match rest with
        | 'u' :: 'l' :: 'l' :: r => some (JValue.null, r)
        | _ => none
      else if c = '-' ∨ c.isDigit then do
        let (n, r) ← parseNumber (c :: rest)
        some (JValue.num n, r)
      else none

/-- Parse the members of a JSON object after the opening `{`
(when the object is not empty), returned in source order with possible
repeats; `parseValue` folds them into a dict with `dedupFields`. -/
def parseMembers : Nat → List Char → Option (List (String × JValue) × List Char)
  | 0, _ => none
  | fuel + 1, cs => do
    match skipWs cs with
    | '"' :: rest => do
      let (key, r1) ← parseStringChars (fuel + 1) rest
      match skipWs r1 with
      | ':' :: r2 => do
        let (v, r3) ← parseValue fuel r2
        match skipWs r3 with
        | ',' :: r4 => do
          let (fields, r5) ← parseMembers fuel r4
          some ((key.asString, v) :: fields, r5)
        | '}' :: r4 => some ([(key.asString, v)], r4)
        | _ => none
      | _ => none
    | _ => none

/-- Parse the items of a JSON array after the opening `[`
(when the array is not empty). -/
def parseItems : Nat → List Char → Option (List JValue × List Char)
  | 0, _ => none
  | fuel + 1, cs => do
    let (v, r1) ← parseValue fuel cs
    match skipWs r1 with
    | ',' :: r2 => do
      let (items, r3) ← parseItems fuel r2
      some (v :: items, r3)
    | ']' :: r2 => some ([v], r2)
    | _ => none

end

/-- Model of Python's `json.loads`: parse a complete JSON document,
requiring the whole input (up to surrounding whitespace) to be consumed,
as `json.loads` raises `Extra data` otherwise. -/
def parseJson (s : String) : Option JValue := do
  let cs := s.toList
  let (v, rest) ← parseValue (cs.length + 1) cs
  if skipWs rest = [] then some v else none

/-- Python whitespace stripped by `str.strip()` (ASCII subset: space,
tab, newline, carriage return, vertical tab, form feed). -/
def isPySpace (c : Char) : Bool :=
  c = ' ' || c = '\t' || c = '\n' || c = '\r' || c = '\x0b' || c = '\x0c'

/-- Model of Python's `str.strip()`: remove whitespace from both ends. -/
def pyStrip (s : String) : String :=
  (((s.toList.dropWhile isPySpace).reverse.dropWhile isPySpace).reverse).asString

/-- Model of Python's `dict.get(key, default)` on a dict held as an
association list: the last binding wins, which on the unique-key lists
produced by `parseJson` coincides with plain dict lookup. -/
def dictGet (fields : List (String × JValue)) (key : String) (dflt : JValue) : JValue :=
  match fields.reverse.find? (fun kv => kv.1 == key) with
  | some kv => kv.2
  | none => dflt

/-- The brace-split step of the chat handlers (`app.py` lines 83-89,
`sampleapp.py` lines 91-97): if the raw answer contains a `\x7b`, the part
before the first `\x7b` (stripped) is the human part and the substring from
the first `\x7b` (inclusive) is the candidate JSON blob; otherwise the raw
answer itself is the human part and the blob is the literal string "\x7b\x7d". -/
def splitFirstBrace (raw : String) : String × String :=
  if '{' ∈ raw.toList then
    (pyStrip ((raw.toList.takeWhile (fun c => c ≠ '{')).asString),
     (raw.toList.dropWhile (fun c => c ≠ '{')).asString)
  else
    (raw, "\x7b\x7d")

/-- The `ExtractedAnswer` of the spec: human-readable prefix plus filters. -/
structure Extracted where
  human : String
  filters : JValue

/-- `parsed_json.get("filters", \x7b\x7d)` (`app.py` line 93): succeeds only
when the parsed value is a dict; on any other value Python would raise an
uncaught `AttributeError` (modelled as `none`). -/
def getFiltersKey : JValue → Option JValue
  | JValue.obj fields => some (dictGet fields "filters" (JValue.obj []))
  | _ => none

/-- The output-extraction step of the chat handler (`app.py` lines 83-95,
`sampleapp.py` lines 91-103): split at the first `\x7b`, strictly parse the
candidate blob, take its `"filters"` key with default `\x7b\x7d`; on a parse
failure (`json.JSONDecodeError`) the filters default to `\x7b\x7d`.  `none`
models an exception that the handler does not catch. -/
def extractOutput (raw : String) : Option Extracted :=
  let hj := splitFirstBrace raw
  match parseJson hj.2 with
  | some v => do
    let filters ← getFiltersKey v
    some { human := hj.1, filters := filters }
  | none => some { human := hj.1, filters := JValue.obj [] }

/-- The JSON body of a successful `/get` response in `app.py` /
`sampleapp.py`: the saved chat entry, with `_id` added when the MongoDB
insert succeeded (`app.py` lines 98-114). -/
structure ChatBody where
  user_input : String
  answer : String
  filters : JValue
  timestamp : String
  id : Option String

/-- Response of the `/get` route in `app.py` / `sampleapp.py`. -/
inductive AppResp where
  | badRequest (error : String) : AppResp
  | ok (body : ChatBody) : AppResp

/-- HTTP status of an `AppResp`: the error branch is returned with 400,
the success branch with Flask's default 200. -/
def AppResp.status : AppResp → Nat
  | AppResp.badRequest _ => 400
  | AppResp.ok _ => 200

/-- Effect trace of one `/get` request in `app.py` / `sampleapp.py`:
whether the RAG chain was invoked and whether a history insert was
attempted. -/
structure AppTrace where
  ragInvoked : Bool
  insertAttempted : Bool

/-- The `/get` chat handler of `app.py` (lines 70-114) and `sampleapp.py`
(lines 78-122; identical logic).  `formMsg` is `request.form.get("msg")`;
`ragOutcome` is the RAG chain invocation (its `"answer"` field on success,
an exception otherwise — the handler does not catch it); `now` is the
formatted timestamp; `insertOutcome` is the MongoDB insert (inserted id on
success; a failure is caught and merely skips the `_id` field).  `none`
models an uncaught exception escaping the handler. -/
def appChat (formMsg : Option String) (ragOutcome : Except String String)
    (now : String) (insertOutcome : Except String String) :
    Option (AppResp × AppTrace) :=
  match formMsg with
  | none => some (AppResp.badRequest "No message provided", ⟨false, false⟩)
  | some msg =>
    if msg = "" then
      some (AppResp.badRequest "No message provided", ⟨false, false⟩)
    else
      match ragOutcome with
      | Except.error _ => none
      | Except.ok rawAnswer =>
        match extractOutput rawAnswer with
        | none => none
        | some e =>
          some (AppResp.ok
            { user_input := msg
              answer := e.human
              filters := e.filters
              timestamp := now
              id := match insertOutcome with
                    | Except.ok oid => some oid
                    | Except.error _ => none },
            ⟨true, true⟩)

/-- One chat entry as stored in / returned from the history collection.
`id` models the MongoDB `_id` field; the `/history` projection
`\x7b"_id": 0\x7d` removes it (`id := none`). -/
structure HistEntry where
  user_input : String
  answer : String
  filters : JValue
  timestamp : String
  id : Option String

/-- The `\x7b"_id": 0\x7d` projection of the `/history` query: drop the
`_id` field from an entry. -/
def projectNoId (e : HistEntry) : HistEntry :=
  { e with id := none }

/-- Insert an entry into a list sorted by descending timestamp. -/
def insertDesc (e : HistEntry) : List HistEntry → List HistEntry
  | [] => [e]
  | x :: xs =>
    if x.timestamp ≤ e.timestamp then e :: x :: xs
    else x :: insertDesc e xs

/-- Model of MongoDB's `.sort("timestamp", -1)`: sort the collection by
descending timestamp (MongoDB guarantees no particular order among equal
timestamps; insertion sort picks one). -/
def sortDescByTs : List HistEntry → List HistEntry
  | [] => []
  | x :: xs => insertDesc x (sortDescByTs xs)

/-- The `/history` route (`app.py` lines 117-124, `sampleapp.py` lines
125-132): `chat_collection.find(\x7b\x7d, \x7b"_id": 0\x7d).sort("timestamp", -1).limit(10)`,
returned with status 200; a store failure is caught and returned as
`\x7b"error": ...\x7d` with status 500.  `store` is the outcome of reading the
collection. -/
def historyRoute (store : Except String (List HistEntry)) :
    Nat × Except String (List HistEntry) :=
  match store with
  | Except.ok entries =>
      (200, Except.ok (((sortDescByTs entries).take 10).map projectNoId))
  | Except.error e => (500, Except.error e)

/-- A LangChain `Document` produced by the loader (`src/helper.py`):
`page_content` plus the metadata fields the loader sets. -/
structure LoadedDoc where
  page_content : String
  source : String
  key : Option String
  index : Option Nat

/-- The dict branch of `load_json_files` (`src/helper.py` lines 43-49):
`json_data.items()` — the parsed dict's fields, insertion-ordered with
unique keys — is iterated; each string value that is non-empty after
stripping becomes one Document tagged with its key; other values are
skipped. -/
def loadDictFile (fileName : String) (fields : List (String × JValue)) :
    List LoadedDoc :=
  fields.flatMap fun kv =>
    match kv.2 with
    | JValue.str s =>
      if pyStrip s = "" then []
      else [{ page_content := pyStrip s, source := fileName,
              key := some kv.1, index := none }]
    | _ => []

/-- The list branch of `load_json_files` (`src/helper.py` lines 28-41):
for each element, a dict contributes one Document per non-empty string
value of its `items()` (unique keys, tagged with key and list index), a
non-empty string contributes one Document (tagged with the index only),
anything else is skipped. -/
def loadListFile (fileName : String) (items : List JValue) : List LoadedDoc :=
  items.enum.flatMap fun iv =>
    match iv.2 with
    | JValue.obj fields =>
      fields.flatMap fun kv =>
        match kv.2 with
        | JValue.str s =>
          if pyStrip s = "" then []
          else [{ page_content := pyStrip s, source := fileName,
                  key := some kv.1, index := some iv.1 }]
        | _ => []
    | JValue.str s =>
      if pyStrip s = "" then []
      else [{ page_content := pyStrip s, source := fileName,
              key := none, index := some iv.1 }]
    | _ => []

/-- Processing of one `.json` file's content by `load_json_files`
(`src/helper.py` lines 23-52): parse the content; a parse (or read)
failure is caught per file, logged, and yields no Documents; a top-level
value that is neither a list nor a dict takes no branch and also yields
no Documents. -/
def processFile (fileName content : String) : List LoadedDoc :=
  match parseJson content with
  | none => []
  | some (JValue.arr items) => loadListFile fileName items
  | some (JValue.obj fields) => loadDictFile fileName fields
  | some _ => []

/-- Model of Python's `file_name.endswith(".json")` (`src/helper.py`
line 19). -/
def hasJsonExt (name : String) : Bool :=
  (".json".toList).isSuffixOf name.toList

/-- `load_json_files` (`src/helper.py` lines 9-55): the folder is the
listing of (file name, file content) pairs in directory order; files not
ending in `.json` are skipped; the Documents of all processed files are
concatenated in order. -/
def load_json_files (folder : List (String × String)) : List LoadedDoc :=
  folder.flatMap fun f =>
    if hasJsonExt f.1 then processFile f.1 f.2 else []

/-- The metadata of one Pinecone match as used by `test2.py` / `test3.py`
(`match.metadata`, possibly `None`, with optional `source` and `text`
keys). -/
structure PineMeta where
  source : Option String
  text : Option String

/-- Grouping of Pinecone matches by source (`test2.py` lines 39-50,
`test3.py` lines 67-78): for each match with a non-empty `text`, parse it
as JSON (falling back to `\x7b"text": text\x7d` when parsing raises) and
append it to the bucket of its `source` (default `"unknown_source"`).
`defaultdict` plus `dict(grouped)` keeps keys in first-appearance order
and each bucket in match order. -/
def groupInsert (l : List (String × List JValue)) (k : String) (v : JValue) :
    List (String × List JValue) :=
  match l with
  | [] => [(k, [v])]
  | kv :: rest =>
    if kv.1 = k then (kv.1, kv.2 ++ [v]) :: rest
    else kv :: groupInsert rest k v

/-- See `groupInsert`: the full grouping loop over the match list. -/
def groupMatches (ms : List (Option PineMeta)) :
    List (String × List JValue) :=
  ms.foldl (fun acc m =>
    let meta := m.getD { source := none, text := none }
    let source := meta.source.getD "unknown_source"
    let text := meta.text.getD ""
    if text = "" then acc
    else
      match parseJson text with
      | some v => groupInsert acc source v
      | none => groupInsert acc source (JValue.obj [("text", JValue.str text)]))
    []

/-- Response body of `test2.py`'s `/get` route: always HTTP 200 (every
return path is a plain `jsonify`). -/
structure T2Resp where
  status : Nat
  summary : String
  structured_output : List (String × List JValue)

/-- Effect trace of one `test2.py` `/get` request. -/
structure T2Trace where
  pineconeQueried : Bool
  llmInvoked : Bool

/-- The `/get` handler of `test2.py` (lines 26-70): strip the `msg` form
field (default `""`); an empty query short-circuits to a fixed
`"Please enter a query."` summary with empty structured output, querying
nothing; otherwise group the Pinecone matches and ask the LLM for a
summary, substituting an error string when the LLM call raises. -/
def test2Chat (formMsg : Option String) (ms : List (Option PineMeta))
    (llmOutcome : Except String String) : T2Resp × T2Trace :=
  let query := pyStrip (formMsg.getD "")
  if query = "" then
    ({ status := 200, summary := "Please enter a query.",
       structured_output := [] }, ⟨false, false⟩)
  else
    let structured := groupMatches ms
    let summary :=
      match llmOutcome with
      | Except.ok s => pyStrip s
      | Except.error e => "Error generating summary: " ++ e
    ({ status := 200, summary := summary, structured_output := structured },
     ⟨true, true⟩)

/-- Core of Python's `str.replace`: replace every occurrence of `pat`
(non-empty) by `repl`, scanning left to right.  `fuel` bounds recursion;
callers supply the input length plus one. -/
def replaceCore : Nat → List Char → List Char → List Char → List Char
  | 0, l, _, _ => l
  | fuel + 1, l, pat, repl =>
    match l with
    | [] => []
    | c :: cs =>
      if pat.isPrefixOf l then repl ++ replaceCore fuel (l.drop pat.length) pat repl
      else c :: replaceCore fuel cs pat repl

/-- Model of Python's `str.replace(pat, repl)` for a non-empty `pat`. -/
def pyReplace (s pat repl : String) : String :=
  (replaceCore (s.toList.length + 1) s.toList pat.toList repl.toList).asString

/-- `validate_and_repair_json` (`test3.py` lines 26-35): strict
`json.loads`, then on a `JSONDecodeError` a `json_repair.repair_json`
pass followed by a reparse; any failure in the repair path raises a
`ValueError`.  `repair` models the external `json_repair` library
(`none` = the library call itself raises). -/
def validate_and_repair_json (repair : String → Option String) (s : String) :
    Except String JValue :=
  match parseJson s with
  | some v => Except.ok v
  | none =>
    match repair s with
    | some r =>
      match parseJson r with
      | some v => Except.ok v
      | none => Except.error "Failed to repair/parse JSON"
    | none => Except.error "Failed to repair/parse JSON"

/-- Response body of `test3.py`'s `/get` route: always HTTP 200 (every
return path is a plain `jsonify`).  `summary` and `elasticsearch_query`
are whatever JSON values `parsed.get` produced. -/
structure T3Resp where
  summary : JValue
  validated_output : List (String × List JValue)
  elasticsearch_query : JValue

/-- The `/get` handler of `test3.py` (lines 42-144).  Inputs model the
external collaborators: `repair` is `json_repair.repair_json`; `pinecone`
is the embed-and-query step of lines 55-64 (caught on failure); `llm` is
`llm.invoke` (line 120).  Step 4's `try` catches any exception — an LLM
failure, a repair/parse `ValueError`, or `parsed.get` on a non-dict —
and substitutes an error summary, `structured_output`, and `\x7b\x7d`.
Step 5 (lines 140-144) builds the response; note that its
`validated_output` field is `structured_output`, not the `validated_output`
variable computed in step 4. -/
def test3Chat (repair : String → Option String) (formMsg : Option String)
    (pinecone : Except String (List (Option PineMeta)))
    (llm : Except String String) : T3Resp :=
  let query := pyStrip (formMsg.getD "")
  if query = "" then
    { summary := JValue.str "Please enter a query.",
      validated_output := [], elasticsearch_query := JValue.obj [] }
  else
    match pinecone with
    | Except.error e =>
      { summary := JValue.str ("Error connecting to database: " ++ e),
        validated_output := [], elasticsearch_query := JValue.obj [] }
    | Except.ok ms =>
      let structured := groupMatches ms
      match llm with
      | Except.error e =>
        { summary := JValue.str ("Error validating or generating query: " ++ e),
          validated_output := structured, elasticsearch_query := JValue.obj [] }
      | Except.ok out =>
        let cleaned :=
          pyStrip (pyReplace (pyReplace (pyStrip out) "```json" "") "```" "")
        match validate_and_repair_json repair cleaned with
        | Except.error e =>
          { summary := JValue.str ("Error validating or generating query: " ++ e),
            validated_output := structured, elasticsearch_query := JValue.obj [] }
        | Except.ok parsed =>
          match parsed with
          | JValue.obj fields =>
            { summary := dictGet fields "summary" (JValue.str "No summary generated."),
              validated_output := structured,
              elasticsearch_query := dictGet fields "elasticsearch_query" (JValue.obj []) }
          | _ =>
            { summary := JValue.str
                "Error validating or generating query: AttributeError",
              validated_output := structured, elasticsearch_query := JValue.obj [] }

/-! ## Helper lemmas -/

theorem toList_asString (l : List Char) : l.asString.toList = l := rfl

theorem pyStrip_congr {a b : String} (h : a.toList = b.toList) :
    pyStrip a = pyStrip b := by
  simp only [pyStrip, h]

theorem parseJson_congr {a b : String} (h : a.toList = b.toList) :
    parseJson a = parseJson b := by
  simp only [parseJson, h]

theorem mem_pyStrip {c : Char} {s : String} (h : c ∈ (pyStrip s).toList) :
    c ∈ s.toList := by
  simp only [pyStrip, toList_asString, List.mem_reverse] at h
  exact (List.dropWhile_suffix isPySpace).mem
    (List.mem_reverse.mp ((List.dropWhile_suffix isPySpace).mem h))

theorem dropWhile_self {α : Type} (p : α → Bool) (l : List α) :
    List.dropWhile p (List.dropWhile p l) = List.dropWhile p l := by
  cases h : List.dropWhile p l with
  | nil => rfl
  | cons c cs =>
    have hc : p c = false := by
      have := List.head_dropWhile_not p l (by simp [h])
      simpa [h] using this
    simp [List.dropWhile_cons, hc]

theorem dropWhile_of_prefix_self {α : Type} {p : α → Bool} {b a : List α}
    (hpre : b <+: a) (hself : a.dropWhile p = a) : b.dropWhile p = b := by
  cases b with
  | nil => rfl
  | cons c cs =>
    rcases hpre with ⟨t, ht⟩
    by_cases hc : p c = true
    · exfalso
      rw [← ht, List.cons_append, List.dropWhile_cons, if_pos hc] at hself
      have hlen := congrArg List.length hself
      have hle : (List.dropWhile p (cs ++ t)).length ≤ (cs ++ t).length :=
        (List.dropWhile_sublist p).length_le
      simp [List.length_append] at hlen hle
      omega
    · rw [List.dropWhile_cons, if_neg hc]

theorem stripChars_idem (p : Char → Bool) (l : List Char) :
    (((((l.dropWhile p).reverse.dropWhile p).reverse).dropWhile p).reverse.dropWhile p).reverse
      = ((l.dropWhile p).reverse.dropWhile p).reverse := by
  set a := l.dropWhile p with ha
  set b := (a.reverse.dropWhile p).reverse with hbdef
  have hb_rev : b.reverse = a.reverse.dropWhile p := by
    rw [hbdef, List.reverse_reverse]
  have hb_prefix : b <+: a := by
    apply List.reverse_suffix.mp
    rw [hb_rev]
    exact List.dropWhile_suffix p
  have ha_self : a.dropWhile p = a := by
    rw [ha]; exact dropWhile_self p l
  have hb_drop : b.dropWhile p = b := dropWhile_of_prefix_self hb_prefix ha_self
  have hrev_drop : b.reverse.dropWhile p = b.reverse := by
    rw [hb_rev]
    exact dropWhile_self p a.reverse
  rw [hb_drop, hrev_drop, List.reverse_reverse]

theorem pyStrip_idem (s : String) : pyStrip (pyStrip s) = pyStrip s := by
  have h := stripChars_idem isPySpace s.toList
  show ((((pyStrip s).toList.dropWhile isPySpace).reverse.dropWhile isPySpace).reverse).asString
    = pyStrip s
  have hb : (pyStrip s).toList
      = ((s.toList.dropWhile isPySpace).reverse.dropWhile isPySpace).reverse := rfl
  rw [hb, h]
  rfl

theorem brace_split (l1 l2 : List Char) (h : ∀ c ∈ l1, c ≠ '{') :
    (l1 ++ '{' :: l2).takeWhile (fun c => c ≠ '{') = l1 ∧
    (l1 ++ '{' :: l2).dropWhile (fun c => c ≠ '{') = '{' :: l2 := by
  induction l1 with
  | nil => simp [List.takeWhile_cons, List.dropWhile_cons]
  | cons a as ih =>
    have ha : a ≠ '{' := h a (List.mem_cons_self a as)
    have ih2 := ih (fun c hc => h c (List.mem_cons_of_mem a hc))
    simp only [List.cons_append, List.takeWhile_cons, List.dropWhile_cons,
      decide_eq_true_eq]
    rw [if_pos ha, if_pos ha, ih2.1, ih2.2]
    exact ⟨rfl, rfl⟩

theorem splitFirstBrace_no_brace {raw : String}
    (h : ∀ c ∈ raw.toList, c ≠ '{') :
    splitFirstBrace raw = (raw, "\x7b\x7d") := by
  unfold splitFirstBrace
  rw [if_neg]
  intro hmem
  exact h '{' hmem rfl

theorem splitFirstBrace_split (pfx rest : String)
    (hp : ∀ c ∈ pfx.toList, c ≠ '{') :
    splitFirstBrace (pfx ++ "\x7b" ++ rest)
      = (pyStrip pfx, ('{' :: rest.toList).asString) := by
  have hdata : (pfx ++ "\x7b" ++ rest).toList = pfx.toList ++ '{' :: rest.toList := by
    simp [String.toList, String.data_append]
  have hsplit := brace_split pfx.toList rest.toList hp
  unfold splitFirstBrace
  rw [if_pos]
  · rw [hdata, hsplit.1, hsplit.2]
    have : pyStrip (pfx.toList.asString) = pyStrip pfx :=
      pyStrip_congr (toList_asString pfx.toList)
    rw [this]
  · rw [hdata]
    exact List.mem_append_right _ (List.mem_cons_self _ _)

theorem extractOutput_parseFail {raw : String}
    (h : parseJson (splitFirstBrace raw).2 = none) :
    extractOutput raw = some ⟨(splitFirstBrace raw).1, JValue.obj []⟩ := by
  unfold extractOutput
  dsimp only
  rw [h]

theorem extractOutput_parseObj {raw : String} {fields : List (String × JValue)}
    (h : parseJson (splitFirstBrace raw).2 = some (JValue.obj fields)) :
    extractOutput raw
      = some ⟨(splitFirstBrace raw).1, dictGet fields "filters" (JValue.obj [])⟩ := by
  unfold extractOutput
  dsimp only
  rw [h]
  rfl

theorem mem_insertDesc {y e : HistEntry} {l : List HistEntry}
    (h : y ∈ insertDesc e l) : y = e ∨ y ∈ l := by
  induction l with
  | nil =>
    simpa [insertDesc] using h
  | cons x xs ih =>
    unfold insertDesc at h
    by_cases hx : x.timestamp ≤ e.timestamp
    · rw [if_pos hx] at h
      rcases List.mem_cons.mp h with h1 | h1
      · exact Or.inl h1
      · exact Or.inr h1
    · rw [if_neg hx] at h
      rcases List.mem_cons.mp h with h1 | h1
      · exact Or.inr (by simp [h1])
      · rcases ih h1 with h2 | h2
        · exact Or.inl h2
        · exact Or.inr (List.mem_cons_of_mem x h2)

theorem pairwise_insertDesc (e : HistEntry) (l : List HistEntry)
    (h : List.Pairwise (fun a b => b.timestamp ≤ a.timestamp) l) :
    List.Pairwise (fun a b => b.timestamp ≤ a.timestamp) (insertDesc e l) := by
  induction l with
  | nil => simp [insertDesc]
  | cons x xs ih =>
    rcases List.pairwise_cons.mp h with ⟨hx, hxs⟩
    unfold insertDesc
    by_cases hle : x.timestamp ≤ e.timestamp
    · rw [if_pos hle]
      refine List.pairwise_cons.mpr ⟨?_, h⟩
      intro y hy
      rcases hy with _ | hy
      · exact hle
      · exact le_trans (hx y (by assumption)) hle
    · rw [if_neg hle]
      refine List.pairwise_cons.mpr ⟨?_, ih hxs⟩
      intro y hy
      rcases mem_insertDesc hy with h' | h'
      · rw [h']
        exact le_of_not_le hle
      · exact hx y h'

theorem pairwise_sortDescByTs (l : List HistEntry) :
    List.Pairwise (fun a b => b.timestamp ≤ a.timestamp) (sortDescByTs l) := by
  induction l with
  | nil => simp [sortDescByTs]
  | cons x xs ih => exact pairwise_insertDesc x (sortDescByTs xs) ih

theorem mem_loadDictFile {d : LoadedDoc} {n : String}
    {fields : List (String × JValue)} (h : d ∈ loadDictFile n fields) :
    ∃ s : String, d.page_content = pyStrip s ∧ pyStrip s ≠ "" := by
  rcases List.mem_flatMap.mp h with ⟨kv, _, hd⟩
  rcases kv with ⟨k, v⟩
  cases v with
  | str s =>
    by_cases hs : pyStrip s = ""
    · simp [hs] at hd
    · refine ⟨s, ?_, hs⟩
      simp [hs] at hd
      rw [hd]
  | null => simp at hd
  | bool b => simp at hd
  | num m => simp at hd
  | arr items => simp at hd
  | obj fs => simp at hd

theorem mem_loadListFile {d : LoadedDoc} {n : String} {items : List JValue}
    (h : d ∈ loadListFile n items) :
    ∃ s : String, d.page_content = pyStrip s ∧ pyStrip s ≠ "" := by
  rcases List.mem_flatMap.mp h with ⟨iv, _, hd⟩
  rcases iv with ⟨i, v⟩
  cases v with
  | obj fs =>
    rcases List.mem_flatMap.mp hd with ⟨kv, _, hd2⟩
    rcases kv with ⟨k, w⟩
    cases w with
    | str s =>
      by_cases hs : pyStrip s = ""
      · simp [hs] at hd2
      · refine ⟨s, ?_, hs⟩
        simp [hs] at hd2
        rw [hd2]
    | null => simp at hd2
    | bool b => simp at hd2
    | num m => simp at hd2
    | arr its => simp at hd2
    | obj fs2 => simp at hd2
  | str s =>
    by_cases hs : pyStrip s = ""
    · simp [hs] at hd
    · refine ⟨s, ?_, hs⟩
      simp [hs] at hd
      rw [hd]
  | null => simp at hd
  | bool b => simp at hd
  | num m => simp at hd
  | arr its => simp at hd

theorem mem_load_json_files {d : LoadedDoc} {folder : List (String × String)}
    (h : d ∈ load_json_files folder) :
    ∃ s : String, d.page_content = pyStrip s ∧ pyStrip s ≠ "" := by
  rcases List.mem_flatMap.mp h with ⟨f, _, hd⟩
  by_cases hx : hasJsonExt f.1
  · rw [if_pos hx] at hd
    unfold processFile at hd
    cases hp : parseJson f.2 with
    | none => rw [hp] at hd; simp at hd
    | some v =>
      rw [hp] at hd
      cases v with
      | arr items => exact mem_loadListFile hd
      | obj fields => exact mem_loadDictFile hd
      | null => simp at hd
      | bool b => simp at hd
      | num m => simp at hd
      | str s => simp at hd
  · rw [if_neg hx] at hd
    simp at hd

theorem loadDictFile_eq_filterMap (n : String) (fields : List (String × JValue)) :
    loadDictFile n fields
      = fields.filterMap (fun kv =>
          match kv.2 with
          | JValue.str s =>
            if pyStrip s = "" then none
            else some { page_content := pyStrip s, source := n,
                        key := some kv.1, index := none }
          | _ => none) := by
  induction fields with
  | nil => rfl
  | cons kv rest ih =>
    rcases kv with ⟨k, v⟩
    rw [loadDictFile, List.flatMap_cons, List.filterMap_cons]
    rw [loadDictFile] at ih
    cases v with
    | str s =>
      by_cases hs : pyStrip s = ""
      · simp only [hs, if_pos rfl]
        simpa using ih
      · simp only [if_neg hs]
        rw [ih]
        rfl
    | null => simpa using ih
    | bool b => simpa using ih
    | num m => simpa using ih
    | arr items => simpa using ih
    | obj fs => simpa using ih

/-! ## Claim theorems -/

/-- C1 (counterexample): for the raw text `Hi \x7b"a": 1\x7d` — a prefix followed
by a valid JSON object with no `"filters"` key — the handler's extraction
returns `filters = \x7b\x7d`, not the parsed object itself as the claim states
(`app.py` line 93 is `parsed_json.get("filters", \x7b\x7d)`, whose default is the
empty dict). -/
theorem C1_counterexample :
    extractOutput "Hi \x7b\"a\": 1\x7d" = some ⟨"Hi", JValue.obj []⟩ ∧
    extractOutput "Hi \x7b\"a\": 1\x7d"
      ≠ some ⟨"Hi", JValue.obj [("a", JValue.num 1)]⟩ := by
  constructor
  · rfl
  · intro h
    rw [show extractOutput "Hi \x7b\"a\": 1\x7d" = some ⟨"Hi", JValue.obj []⟩ from rfl] at h
    simp at h

/-- C1 (amended): for every raw model text of the form
`<prefix>\x7b<valid JSON object>` whose prefix contains no brace, the
extraction returns `human_text` equal to the prefix with surrounding
whitespace stripped, and `filters` equal to the parsed object's
`"filters"` key when present, or the empty object (not the parsed object
itself) when no such key exists. -/
theorem C1_extract (pfx rest : String) (fields : List (String × JValue))
    (hp : ∀ c ∈ pfx.toList, c ≠ '{')
    (hj : parseJson ("\x7b" ++ rest) = some (JValue.obj fields)) :
    extractOutput (pfx ++ "\x7b" ++ rest)
      = some ⟨pyStrip pfx, dictGet fields "filters" (JValue.obj [])⟩ := by
  have hsplit := splitFirstBrace_split pfx rest hp
  have h2 : parseJson (splitFirstBrace (pfx ++ "\x7b" ++ rest)).2
      = some (JValue.obj fields) := by
    rw [hsplit]
    have hcongr : parseJson (('{' :: rest.toList).asString) = parseJson ("\x7b" ++ rest) :=
      parseJson_congr (by rw [toList_asString]; simp [String.toList, String.data_append])
    rw [show ((pyStrip pfx, ('{' :: rest.toList).asString)).2
        = ('{' :: rest.toList).asString from rfl, hcongr, hj]
  rw [extractOutput_parseObj h2, hsplit]

/-- C1 witness: the spec's own example
`Here is info \x7b"filters": \x7b"industry": "tech"\x7d\x7d`. -/
theorem C1_witness :
    (∀ c ∈ ("Here is info " : String).toList, c ≠ '{') ∧
    extractOutput ("Here is info " ++ "\x7b" ++ "\"filters\": \x7b\"industry\": \"tech\"\x7d\x7d")
      = some ⟨pyStrip "Here is info ",
              dictGet [("filters", JValue.obj [("industry", JValue.str "tech")])]
                "filters" (JValue.obj [])⟩ :=
  ⟨by decide,
   C1_extract "Here is info " "\"filters\": \x7b\"industry\": \"tech\"\x7d\x7d"
     [("filters", JValue.obj [("industry", JValue.str "tech")])]
     (by decide) (by rfl)⟩

/-- C2 (counterexample): on the brace-free raw text `" hi "` the handler
returns the raw text unchanged as `human_text` (the no-brace branch of
`app.py` line 88 performs no `.strip()`), which differs from the trimmed
text the claim specifies. -/
theorem C2_counterexample :
    extractOutput " hi " = some ⟨" hi ", JValue.obj []⟩ ∧
    (" hi " : String) ≠ pyStrip " hi " :=
  ⟨rfl, by decide⟩

/-- C2 (amended): for every raw model text containing no brace, the
extraction returns `human_text` equal to the entire raw text unchanged
(no whitespace trimming is applied in this branch), and `filters` equal
to the empty object. -/
theorem C2_extract (raw : String) (h : ∀ c ∈ raw.toList, c ≠ '{') :
    extractOutput raw = some ⟨raw, JValue.obj []⟩ := by
  have hsplit := splitFirstBrace_no_brace h
  have h2 : parseJson (splitFirstBrace raw).2 = some (JValue.obj []) := by
    rw [hsplit]; rfl
  rw [extractOutput_parseObj h2, hsplit]
  rfl

/-- C2 witness: the spec's example `No structured data available.`. -/
theorem C2_witness :
    (∀ c ∈ ("No structured data available." : String).toList, c ≠ '{') ∧
    extractOutput "No structured data available."
      = some ⟨"No structured data available.", JValue.obj []⟩ :=
  ⟨by decide, C2_extract _ (by decide)⟩

/-- C9 (counterexample): on `hi \x7b\x7d` the split step returns `hi` (the
prefix before the first brace, stripped), not the prefix `hi ` strictly
before the first brace as the claim states. -/
theorem C9_counterexample :
    (splitFirstBrace "hi \x7b\x7d").1 = "hi" ∧ ("hi" : String) ≠ "hi " :=
  ⟨rfl, by decide⟩

/-- C9 (amended): for every raw model text, the `human_text` produced by
the split step contains no brace; in the no-brace case it is the raw text
itself, and otherwise it is the prefix strictly before the first brace
with surrounding whitespace stripped, and every brace of the input ends
up in the candidate JSON blob (the blob's brace count equals the
input's). -/
theorem C9_split (raw : String) :
    '{' ∉ ((splitFirstBrace raw).1).toList ∧
    ('{' ∉ raw.toList → (splitFirstBrace raw).1 = raw) ∧
    ('{' ∈ raw.toList →
      (splitFirstBrace raw).1
        = pyStrip ((raw.toList.takeWhile (fun c => c ≠ '{')).asString) ∧
      ((splitFirstBrace raw).2).toList.count '{' = raw.toList.count '{') := by
  by_cases hb : '{' ∈ raw.toList
  · have h1 : splitFirstBrace raw
        = (pyStrip ((raw.toList.takeWhile (fun c => c ≠ '{')).asString),
           (raw.toList.dropWhile (fun c => c ≠ '{')).asString) := by
      unfold splitFirstBrace
      rw [if_pos hb]
    refine ⟨?_, fun h => absurd hb h, fun _ => ⟨by rw [h1], ?_⟩⟩
    · rw [h1]
      intro hmem
      have := mem_pyStrip hmem
      rw [toList_asString] at this
      have := List.mem_takeWhile_imp this
      simp at this
    · rw [h1]
      have hdecomp := List.takeWhile_append_dropWhile (fun c => decide (c ≠ '{')) raw.toList
      have hcount0 : (raw.toList.takeWhile (fun c => c ≠ '{')).count '{' = 0 := by
        apply List.count_eq_zero.mpr
        intro hmem
        have := List.mem_takeWhile_imp hmem
        simp at this
      calc ((raw.toList.dropWhile (fun c => c ≠ '{')).asString).toList.count '{'
          = (raw.toList.dropWhile (fun c => c ≠ '{')).count '{' := by
            rw [toList_asString]
        _ = raw.toList.count '{' := by
            conv_rhs => rw [← hdecomp]
            rw [List.count_append, hcount0]
            omega
  · have h1 : splitFirstBrace raw = (raw, "\x7b\x7d") :=
      splitFirstBrace_no_brace (fun c hc he => hb (he ▸ hc))
    refine ⟨?_, fun _ => by rw [h1], fun h => absurd h hb⟩
    rw [h1]
    exact hb

/-- C9 witness: concrete instance `hi \x7b\x7d` of the invariant and the
brace-count preservation. -/
theorem C9_witness :
    '{' ∉ ((splitFirstBrace "hi \x7b\x7d").1).toList ∧
    ((splitFirstBrace "hi \x7b\x7d").2).toList.count '{'
      = ("hi \x7b\x7d").toList.count '{' :=
  ⟨(C9_split "hi \x7b\x7d").1, (((C9_split "hi \x7b\x7d").2.2) (by decide)).2⟩

/-- C3 (counterexample): in the `test2.py` variant cited by the claim, a
`POST /get` with empty `msg` returns HTTP 200 (with a placeholder summary
and no error field), not HTTP 400 (`test2.py` lines 28-30). -/
theorem C3_counterexample :
    (test2Chat (some "") [] (Except.ok "")).1.status = 200 ∧ (200 : Nat) ≠ 400 :=
  ⟨rfl, by decide⟩

/-- C3 (amended): for a `POST /get` whose `msg` form field is missing or
empty, the `app.py`/`sampleapp.py` handler returns HTTP 400 with an
`error` body and performs no retrieval, generation, or history write;
the `test2.py`/`test3.py` variants instead return HTTP 200 with a
placeholder summary and empty structured output, likewise performing no
retrieval, generation, or history write. -/
theorem C3_missing_msg (m : Option String) (hm : m = none ∨ m = some "")
    (rag : Except String String) (now : String) (ins : Except String String)
    (ms : List (Option PineMeta)) (llm : Except String String)
    (repair : String → Option String)
    (pc : Except String (List (Option PineMeta))) :
    appChat m rag now ins
      = some (AppResp.badRequest "No message provided", ⟨false, false⟩) ∧
    (AppResp.badRequest "No message provided").status = 400 ∧
    test2Chat m ms llm
      = ({ status := 200, summary := "Please enter a query.",
           structured_output := [] }, ⟨false, false⟩) ∧
    test3Chat repair m pc llm
      = { summary := JValue.str "Please enter a query.",
          validated_output := [], elasticsearch_query := JValue.obj [] } := by
  rcases hm with h | h <;> subst h <;> exact ⟨rfl, rfl, rfl, rfl⟩

/-- C3 witness: the empty-string `msg` at concrete arguments. -/
theorem C3_witness :
    appChat (some "") (Except.ok "ans") "t" (Except.ok "id")
      = some (AppResp.badRequest "No message provided", ⟨false, false⟩) ∧
    test2Chat (some "") [] (Except.ok "sum")
      = ({ status := 200, summary := "Please enter a query.",
           structured_output := [] }, ⟨false, false⟩) :=
  let h := C3_missing_msg (some "") (Or.inr rfl) (Except.ok "ans") "t"
    (Except.ok "id") [] (Except.ok "sum") (fun _ => none) (Except.ok [])
  ⟨h.1, h.2.2.1⟩

/-- C4 (confirmed): for every raw model text whose candidate JSON blob
fails strict parsing, the `app.py`/`sampleapp.py` chat handler sets
`filters` to the empty object and still returns a normal HTTP 200
response with the usual body, rather than failing the request
(`app.py` lines 94-95: `except json.JSONDecodeError: filters = \x7b\x7d`). -/
theorem C4_parse_failure (msg raw now : String) (ins : Except String String)
    (hm : msg ≠ "")
    (hp : parseJson (splitFirstBrace raw).2 = none) :
    ∃ body : ChatBody,
      appChat (some msg) (Except.ok raw) now ins
        = some (AppResp.ok body, ⟨true, true⟩) ∧
      body.filters = JValue.obj [] ∧
      body.answer = (splitFirstBrace raw).1 ∧
      body.user_input = msg ∧
      (AppResp.ok body).status = 200 := by
  have he := extractOutput_parseFail hp
  refine ⟨{ user_input := msg, answer := (splitFirstBrace raw).1,
            filters := JValue.obj [], timestamp := now,
            id := match ins with
                  | Except.ok oid => some oid
                  | Except.error _ => none },
          ?_, rfl, rfl, rfl, rfl⟩
  unfold appChat
  dsimp only
  rw [if_neg hm, he]

/-- C4 witness: the malformed blob `\x7bbad` at concrete arguments. -/
theorem C4_witness :
    parseJson (splitFirstBrace "Oops \x7bbad").2 = none ∧
    ∃ body : ChatBody,
      appChat (some "hi") (Except.ok "Oops \x7bbad") "2024-01-01 00:00:00"
          (Except.ok "id1")
        = some (AppResp.ok body, ⟨true, true⟩) ∧
      body.filters = JValue.obj [] ∧
      body.answer = (splitFirstBrace "Oops \x7bbad").1 ∧
      body.user_input = "hi" ∧
      (AppResp.ok body).status = 200 :=
  ⟨rfl, C4_parse_failure "hi" "Oops \x7bbad" "2024-01-01 00:00:00"
    (Except.ok "id1") (by decide) (by rfl)⟩

/-- C5 (confirmed): `GET /history` returns at most 10 entries, ordered
newest first by the stored timestamp, with the `_id` field omitted from
every entry; a store read failure yields HTTP 500 with an error body
(`app.py` lines 117-124). -/
theorem C5_history (store : Except String (List HistEntry)) :
    (∀ entries, store = Except.ok entries →
      ∃ out, historyRoute store = (200, Except.ok out) ∧
        out.length ≤ 10 ∧
        List.Pairwise (fun a b => b.timestamp ≤ a.timestamp) out ∧
        ∀ e ∈ out, e.id = none) ∧
    (∀ err, store = Except.error err →
      historyRoute store = (500, Except.error err)) := by
  constructor
  · intro entries h
    subst h
    refine ⟨((sortDescByTs entries).take 10).map projectNoId, rfl, ?_, ?_, ?_⟩
    · rw [List.length_map, List.length_take]
      exact min_le_left _ _
    · rw [List.pairwise_map]
      exact List.Pairwise.sublist (List.take_sublist 10 _)
        (pairwise_sortDescByTs entries)
    · intro e he
      rcases List.mem_map.mp he with ⟨a, _, rfl⟩
      rfl
  · intro err h
    subst h
    rfl

/-- C5 witness: a concrete two-entry store and a failing store. -/
theorem C5_witness :
    (∃ out, historyRoute (Except.ok
        [{ user_input := "a", answer := "x", filters := JValue.obj [],
           timestamp := "2024-01-01 00:00:00", id := some "1" },
         { user_input := "b", answer := "y", filters := JValue.obj [],
           timestamp := "2024-01-02 00:00:00", id := some "2" }])
        = (200, Except.ok out) ∧
      out.length ≤ 10 ∧
      List.Pairwise (fun a b => b.timestamp ≤ a.timestamp) out ∧
      ∀ e ∈ out, e.id = none) ∧
    historyRoute (Except.error "boom") = (500, Except.error "boom") :=
  ⟨(C5_history _).1 _ rfl, (C5_history (Except.error "boom")).2 "boom" rfl⟩

/-- C6 (confirmed): for a `.json` file parsing to a top-level object, the
loader produces exactly one Record per key whose value is a string that
is non-empty after stripping, tagged with that key, skipping non-string
values and empty-after-strip strings (`src/helper.py` lines 43-49). -/
theorem C6_loader (name content : String) (fields : List (String × JValue))
    (hn : hasJsonExt name = true)
    (hp : parseJson content = some (JValue.obj fields)) :
    load_json_files [(name, content)]
      = fields.filterMap (fun kv =>
          match kv.2 with
          | JValue.str s =>
            if pyStrip s = "" then none
            else some { page_content := pyStrip s, source := name,
                        key := some kv.1, index := none }
          | _ => none) := by
  unfold load_json_files
  simp only [List.flatMap_cons, List.flatMap_nil, List.append_nil]
  rw [if_pos hn]
  unfold processFile
  rw [hp]
  exact loadDictFile_eq_filterMap name fields

/-- C6 witness: the spec's one-file folder `\x7b"a": "x", "b": ""\x7d`, which
yields exactly one Record; additionally, a duplicate-key file
`\x7b"a": "x", "a": 1\x7d` parses to the single-entry dict `\x7b"a": 1\x7d` (last
value wins, as `json.load` builds a Python dict) and so yields zero
Records, matching the program. -/
theorem C6_witness :
    hasJsonExt "f.json" = true ∧
    parseJson "\x7b\"a\": \"x\", \"b\": \"\"\x7d"
      = some (JValue.obj [("a", JValue.str "x"), ("b", JValue.str "")]) ∧
    load_json_files [("f.json", "\x7b\"a\": \"x\", \"b\": \"\"\x7d")]
      = [{ page_content := "x", source := "f.json", key := some "a",
           index := none }] ∧
    parseJson "\x7b\"a\": \"x\", \"a\": 1\x7d"
      = some (JValue.obj [("a", JValue.num 1)]) ∧
    load_json_files [("d.json", "\x7b\"a\": \"x\", \"a\": 1\x7d")] = [] := by
  refine ⟨by decide, by rfl, ?_, by rfl, by rfl⟩
  rw [C6_loader "f.json" _ [("a", JValue.str "x"), ("b", JValue.str "")]
    (by decide) (by rfl)]
  rfl

/-- C7 (confirmed): a file whose content fails to parse yields zero
Records and does not stop the loader: the result over a folder containing
it is exactly the concatenation of the results over the surrounding files
(`src/helper.py` lines 51-52 catch per-file errors and continue). -/
theorem C7_malformed (pre post : List (String × String)) (name content : String)
    (hbad : parseJson content = none) :
    load_json_files (pre ++ (name, content) :: post)
      = load_json_files pre ++ load_json_files post := by
  unfold load_json_files
  rw [List.flatMap_append, List.flatMap_cons]
  have hzero : (if hasJsonExt name then processFile name content else []) = [] := by
    by_cases hx : hasJsonExt name
    · rw [if_pos hx]
      unfold processFile
      rw [hbad]
    · rw [if_neg hx]
  dsimp only
  rw [hzero, List.nil_append]

/-- C7 witness: a malformed middle file `\x7b` between two good files. -/
theorem C7_witness :
    parseJson "\x7b" = none ∧
    load_json_files
        ([("a.json", "\x7b\"k\": \"v\"\x7d")]
          ++ ("bad.json", "\x7b") :: [("c.json", "[\"w\"]")])
      = load_json_files [("a.json", "\x7b\"k\": \"v\"\x7d")]
        ++ load_json_files [("c.json", "[\"w\"]")] :=
  ⟨rfl, C7_malformed [("a.json", "\x7b\"k\": \"v\"\x7d")]
    [("c.json", "[\"w\"]")] "bad.json" "\x7b" (by rfl)⟩

/-- C8 (confirmed): every Record the loader produces, from both
list-shaped and object-shaped files, has `page_content` equal to the
stripped source string and non-empty: stripping it again changes nothing
and it is not the empty string (`src/helper.py` lines 32, 37, 45). -/
theorem C8_nonempty (folder : List (String × String)) (d : LoadedDoc)
    (h : d ∈ load_json_files folder) :
    pyStrip d.page_content = d.page_content ∧ d.page_content ≠ "" := by
  rcases mem_load_json_files h with ⟨s, heq, hne⟩
  constructor
  · rw [heq, pyStrip_idem]
  · rw [heq]
    exact hne

/-- C8 witness: a value `" x "` stored as the stripped `"x"`. -/
theorem C8_witness :
    ({ page_content := "x", source := "f2.json", key := some "a",
       index := none } : LoadedDoc)
      ∈ load_json_files [("f2.json", "\x7b\"a\": \" x \"\x7d")] ∧
    pyStrip "x" = "x" ∧ ("x" : String) ≠ "" := by
  have hmem : ({ page_content := "x", source := "f2.json",
                 key := some "a", index := none } : LoadedDoc)
      ∈ load_json_files [("f2.json", "\x7b\"a\": \" x \"\x7d")] := by
    rw [show load_json_files [("f2.json", "\x7b\"a\": \" x \"\x7d")]
        = [{ page_content := "x", source := "f2.json", key := some "a",
             index := none }] from rfl]
    exact List.mem_singleton.mpr rfl
  have h := C8_nonempty _ _ hmem
  exact ⟨hmem, h.1, h.2⟩

/-- C10 (confirmed): in the repair-enabled `test3.py` handler, the
`validated_output` field of the response always equals the
`structured_output` grouped from the retrieval matches before the LLM
call, for every LLM outcome and repair behaviour: line 142 returns
`structured_output`, so the `validated_output` parsed from the model's
JSON never reaches the response. -/
theorem C10_validated_output (repair : String → Option String)
    (m : Option String) (ms : List (Option PineMeta))
    (llm : Except String String)
    (hq : pyStrip (m.getD "") ≠ "") :
    (test3Chat repair m (Except.ok ms) llm).validated_output
      = groupMatches ms := by
  unfold test3Chat
  rw [if_neg hq]
  dsimp only
  cases llm with
  | error e => rfl
  | ok out =>
    dsimp only
    cases hv : validate_and_repair_json repair
        (pyStrip (pyReplace (pyReplace (pyStrip out) "```json" "") "```" "")) with
    | error e => rfl
    | ok parsed => cases parsed <;> rfl

/-- C10 witness: a non-empty query with matches and an unparseable,
unrepairable LLM output. -/
theorem C10_witness :
    pyStrip ((some "q" : Option String).getD "") ≠ "" ∧
    (test3Chat (fun _ => none) (some "q")
        (Except.ok [some ⟨some "s", some "x"⟩])
        (Except.ok "notjson")).validated_output
      = groupMatches [some ⟨some "s", some "x"⟩] :=
  ⟨by decide, C10_validated_output (fun _ => none) (some "q")
    [some ⟨some "s", some "x"⟩] (Except.ok "notjson") (by decide)⟩
